import Mathlib

/-!
Verification of the order-service repository: a shallow embedding of the
order placement workflow and the order status state machine, with theorems
settling the frozen claims about the specification.

Modelling conventions:
- Go `int64` values become `Int` (quantities, ranks, discount percentages);
  Go `float64` money values become `Rat`, which makes the discount algebra
  exact (the source concedes floating-point tolerance for these).
- The two package-level maps `orders` and `orderItems` become association
  lists inside a `Store` structure; Go map assignment becomes `putAssoc`.
- The remote product catalog is a parameter: each loop of the placement
  workflow re-fetches product details, so each loop receives its own
  snapshot function, reflecting that the remote catalog may change between
  phases. `updOk` models whether the quantity-update RPC succeeds.
- Handlers return `Except` values carrying the offending identifier where
  the Go code writes an error body naming it; the list of `CatalogCall`
  values records every catalog RPC the run performed, in order.
-/

namespace OrderService

/-- The five order statuses of the service. -/
inductive OrderStatus where
  | placed
  | dispatched
  | completed
  | returned
  | cancelled
deriving DecidableEq, Repr

/-- The `Order` record stored in the `orders` map. -/
structure Order where
  id : String
  discount : Int
  amount : Rat
  status : OrderStatus
  dispatchedAt : String
  createdAt : String
  updatedAt : String
deriving DecidableEq, Repr

/-- The `OrderItem` record stored in the `orderItems` map. -/
structure OrderItem where
  productId : String
  productQuantity : Int
  orderId : String
deriving DecidableEq, Repr

/-- Product details as reported by the remote catalog
(`productpb.GetProductDetailsResponse`). -/
structure ProductDetails where
  name : String
  description : String
  category : String
  price : Rat
  quantity : Int
deriving DecidableEq, Repr

/-- One item of a `CreateOrderRequest`. -/
structure CreateOrderItemsRequest where
  productId : String
  quantity : Int
deriving DecidableEq, Repr

/-- The body of a place-order request. -/
structure CreateOrderRequest where
  items : List CreateOrderItemsRequest
deriving DecidableEq, Repr

/-- One enriched line item of a response (`CreateOrderItemsResponse`). -/
structure CreateOrderItemsResponse where
  id : String
  name : String
  description : String
  category : String
  price : Rat
  quantity : Int
deriving DecidableEq, Repr

/-- The response shape shared by the order handlers (`CreateOrderResponse`). -/
structure CreateOrderResponse where
  id : String
  items : List CreateOrderItemsResponse
  discount : Int
  amount : Rat
  status : OrderStatus
  dispatchedAt : String
  createdAt : String
  updatedAt : String
deriving DecidableEq, Repr

/-- The shared in-memory store: the `orders` and `orderItems` maps,
modelled as association lists. -/
structure Store where
  orders : List (String × Order)
  orderItems : List (String × List OrderItem)
deriving DecidableEq, Repr

/-- Lookup in an association list, the model of Go map indexing. -/
def lookupAssoc {α : Type} (l : List (String × α)) (k : String) : Option α :=
  match l with
  | [] => none
  | (k₁, v) :: rest => if k₁ = k then some v else lookupAssoc rest k

/-- Map assignment `m[k] = v` on the association-list model. -/
def putAssoc {α : Type} (l : List (String × α)) (k : String) (v : α) :
    List (String × α) :=
  match l with
  | [] => [(k, v)]
  | (k₁, v₁) :: rest =>
    if k₁ = k then (k, v) :: rest else (k₁, v₁) :: putAssoc rest k v

/-- Model of `strings.ToLower` (character-wise lowering; the inputs of this
service are ASCII identifiers and category names). -/
def lowerStr (s : String) : String :=
  String.mk (s.data.map Char.toLower)

/-- The duplicate-product-id pass of `CreateOrderRequest.Validate`: walk the
items keeping the lowered ids seen so far, reporting a repeat. -/
def dupCheck : List String → List CreateOrderItemsRequest → Bool
  | _, [] => false
  | uniqueItems, item :: rest =>
    if uniqueItems.any (fun product_id => lowerStr item.productId == product_id) then
      true
    else
      dupCheck (uniqueItems ++ [lowerStr item.productId]) rest

/-- The per-item pass of `CreateOrderRequest.Validate`: empty product id,
then the quantity bound. -/
def itemCheck : List CreateOrderItemsRequest → Option String
  | [] => none
  | item :: rest =>
    if item.productId = "" then
      some "invalid product id"
    else if !(item.quantity > 0 && item.quantity ≤ 10) then
      some "product quantiy must be greater than 0 and less than equal to 10"
    else
      itemCheck rest

/-- `CreateOrderRequest.Validate`: empty-list check, duplicate check, then
the per-item checks, returning the first error message. -/
def Validate (coReq : CreateOrderRequest) : Option String :=
  if coReq.items.length = 0 then
    some "items not provided"
  else if dupCheck [] coReq.items then
    some "product id is repeated"
  else
    itemCheck coReq.items

/-- A catalog RPC performed by the workflow: a details fetch or a
quantity update (`GetProductDetails` / `UpdateProductQuantity`). -/
inductive CatalogCall where
  | get (productId : String)
  | upd (productId : String) (quantity : Int)
deriving DecidableEq, Repr

/-- The catalog views the placement workflow consults. The Go handler
re-fetches product details in each of its loops, so each loop gets its own
snapshot function; `updOk` tells whether `UpdateProductQuantity` succeeds
for a given id and absolute quantity. -/
structure Catalogs where
  check : String → Option ProductDetails
  price : String → Option ProductDetails
  adjust : String → Option ProductDetails
  proj : String → Option ProductDetails
  updOk : String → Int → Bool

/-- The rejection outcomes of `PlaceOrderHandler`, each carrying the data
the Go handler interpolates into its error body. -/
inductive PlaceError where
  | validation (msg : String)
  | productNotFound (productId : String)
  | insufficientInventory (productId : String)
  | productNotFoundPricing (productId : String)
  | productNotFoundAdjust (productId : String)
  | inventoryUpdateFailed (productId : String)
  | projectionFailed (productId : String)
deriving DecidableEq, Repr

/-- The existence-and-stock loop of `PlaceOrderHandler`: fetch each product,
reject on a missing product or on `quantity < requested`, recording the
catalog calls made. -/
def checkLoop (get : String → Option ProductDetails) :
    List CreateOrderItemsRequest → Option PlaceError × List CatalogCall
  | [] => (none, [])
  | item :: rest =>
    match get item.productId with
    | none => (some (.productNotFound item.productId), [.get item.productId])
    | some productDetails =>
      if productDetails.quantity < item.quantity then
        (some (.insufficientInventory item.productId), [.get item.productId])
      else
        let result := checkLoop get rest
        (result.1, .get item.productId :: result.2)

/-- The pricing loop of `PlaceOrderHandler`: re-fetch each product,
accumulate the amount and the premium counter, and build the order items.
Rational addition is associative and commutative, so accumulating front to
back as the Go loop does yields this sum. -/
def priceLoop (get : String → Option ProductDetails) (orderId : String) :
    List CreateOrderItemsRequest →
      Except PlaceError (Rat × Nat × List OrderItem) × List CatalogCall
  | [] => (.ok (0, 0, []), [])
  | item :: rest =>
    match get item.productId with
    | none => (.error (.productNotFoundPricing item.productId), [.get item.productId])
    | some productDetails =>
      match priceLoop get orderId rest with
      | (.ok (amount, premiumCount, oItems), calls) =>
        (.ok (productDetails.price * (item.quantity : Rat) + amount,
              (if lowerStr productDetails.category == "premium" then 1 else 0) + premiumCount,
              { productId := item.productId
                productQuantity := item.quantity
                orderId := orderId } :: oItems),
         .get item.productId :: calls)
      | (.error e, calls) => (.error e, .get item.productId :: calls)

/-- The inventory-adjustment loop of `PlaceOrderHandler`: re-fetch each
product, then set its quantity to the fetched quantity minus the requested
one; the first failed fetch or failed update aborts the loop. -/
def adjustLoop (get : String → Option ProductDetails) (updOk : String → Int → Bool) :
    List CreateOrderItemsRequest → Option PlaceError × List CatalogCall
  | [] => (none, [])
  | item :: rest =>
    match get item.productId with
    | none => (some (.productNotFoundAdjust item.productId), [.get item.productId])
    | some productDetails =>
      if updOk item.productId (productDetails.quantity - item.quantity) then
        let result := adjustLoop get updOk rest
        (result.1,
         .get item.productId ::
           .upd item.productId (productDetails.quantity - item.quantity) :: result.2)
      else
        (some (.inventoryUpdateFailed item.productId),
         [.get item.productId,
          .upd item.productId (productDetails.quantity - item.quantity)])

/-- `GetOrderItemsDetailsList`: join stored order items with live catalog
data; the first missing product fails the whole projection, returning its
id. -/
def GetOrderItemsDetailsList (get : String → Option ProductDetails) :
    List OrderItem → Except String (List CreateOrderItemsResponse) × List CatalogCall
  | [] => (.ok [], [])
  | item :: rest =>
    match get item.productId with
    | none => (.error item.productId, [.get item.productId])
    | some productDetails =>
      match GetOrderItemsDetailsList get rest with
      | (.ok l, calls) =>
        (.ok ({ id := item.productId
                name := productDetails.name
                description := productDetails.description
                category := productDetails.category
                price := productDetails.price
                quantity := item.productQuantity } :: l),
         .get item.productId :: calls)
      | (.error e, calls) => (.error e, .get item.productId :: calls)

/-- `PlaceOrderHandler` after JSON decoding: validation, stock check,
pricing with the premium discount, persistence of the order and its items,
inventory adjustment, and the response projection. `newId` stands for
`uuid.New()` and `now` for the formatted `time.Now()`. The result carries
the response or the rejection, the final store, and the catalog calls in
order. -/
def PlaceOrderHandler (cats : Catalogs) (st : Store) (oReq : CreateOrderRequest)
    (newId now : String) :
    Except PlaceError CreateOrderResponse × Store × List CatalogCall :=
  match Validate oReq with
  | some msg => (.error (.validation msg), st, [])
  | none =>
    match checkLoop cats.check oReq.items with
    | (some e, calls) => (.error e, st, calls)
    | (none, calls₁) =>
      match priceLoop cats.price newId oReq.items with
      | (.error e, calls₂) => (.error e, st, calls₁ ++ calls₂)
      | (.ok (orderAmount, numberOfPremiumProducts, oItems), calls₂) =>
        let o : Order :=
          { id := newId
            discount := 0
            amount := 0
            status := .placed
            dispatchedAt := ""
            createdAt := now
            updatedAt := now }
        let o₁ : Order :=
          if numberOfPremiumProducts ≥ 3 then
            { o with
              discount := 10
              amount := orderAmount - orderAmount * 10 / 100 }
          else
            { o with amount := orderAmount }
        let st₁ : Store :=
          { orders := putAssoc st.orders o₁.id o₁
            orderItems := putAssoc st.orderItems o₁.id oItems }
        match adjustLoop cats.adjust cats.updOk oReq.items with
        | (some e, calls₃) => (.error e, st₁, calls₁ ++ calls₂ ++ calls₃)
        | (none, calls₃) =>
          match GetOrderItemsDetailsList cats.proj
              ((lookupAssoc st₁.orderItems o₁.id).getD []) with
          | (.error pid, calls₄) =>
            (.error (.projectionFailed pid), st₁, calls₁ ++ calls₂ ++ calls₃ ++ calls₄)
          | (.ok detailsList, calls₄) =>
            (.ok { id := o₁.id
                   items := detailsList
                   discount := o₁.discount
                   amount := o₁.amount
                   status := o₁.status
                   dispatchedAt := ""
                   createdAt := o₁.createdAt
                   updatedAt := o₁.updatedAt },
             st₁, calls₁ ++ calls₂ ++ calls₃ ++ calls₄)

/-- The rank table `orderStatusMap` of `UpdateOrderStatusHandler`. -/
def orderStatusMap : OrderStatus → Int
  | .placed => 1
  | .dispatched => 2
  | .completed => 3
  | .returned => 4
  | .cancelled => 5

/-- The transition switch of `UpdateOrderStatusHandler`: the first matching
case rejects with its message; falling through accepts. -/
def statusDecision (current new : OrderStatus) : Option String :=
  let currentOrderStatusRank := orderStatusMap current
  let newOrderStatusRank := orderStatusMap new
  if newOrderStatusRank ≤ currentOrderStatusRank then
    some "order status can be updated to a lower or the same status"
  else if newOrderStatusRank = 3 ∧ currentOrderStatusRank ≠ 2 then
    some "order cannot be completed until it is dispatched"
  else if newOrderStatusRank = 4 ∧ currentOrderStatusRank ≠ 3 then
    some "order cannot be returned until it is completed"
  else if newOrderStatusRank = 5 ∧ currentOrderStatusRank > 2 then
    some "order cannot be cancelled once it is completed or returned"
  else
    none

/-- The mutation an accepted status update performs on the stored order:
set the status, and stamp `dispatchedAt` on a transition into Dispatched.
The Go handler touches no other field. `none` on a rejected transition. -/
def statusStep (o : Order) (newStatus : OrderStatus) (now : String) : Option Order :=
  match statusDecision o.status newStatus with
  | some _ => none
  | none =>
    some { o with
           status := newStatus
           dispatchedAt := if newStatus = .dispatched then now else o.dispatchedAt }

/-- Run a sequence of status updates, each of which must be accepted. -/
def runSteps (o : Order) : List (OrderStatus × String) → Option Order
  | [] => some o
  | (newStatus, now) :: rest =>
    match statusStep o newStatus now with
    | none => none
    | some o₁ => runSteps o₁ rest

/-- The rejection outcomes of `UpdateOrderStatusHandler`. -/
inductive UpdateError where
  | orderNotFound (orderId : String)
  | rejected (msg : String)
  | projectionFailed (productId : String)
deriving DecidableEq, Repr

/-- `UpdateOrderStatusHandler` after JSON decoding, for a recognised status
literal: look the order up, run the transition switch, mutate status and
`dispatchedAt`, write the order back, and build the response. The Go
response literal omits the `Discount` field, so it carries the zero value
0. -/
def UpdateOrderStatusHandler (get : String → Option ProductDetails) (st : Store)
    (orderId : String) (newStatus : OrderStatus) (now : String) :
    Except UpdateError CreateOrderResponse × Store :=
  match lookupAssoc st.orders orderId with
  | none => (.error (.orderNotFound orderId), st)
  | some o =>
    match statusDecision o.status newStatus with
    | some msg => (.error (.rejected msg), st)
    | none =>
      let o₁ : Order :=
        { o with
          status := newStatus
          dispatchedAt := if newStatus = .dispatched then now else o.dispatchedAt }
      let st₁ : Store := { st with orders := putAssoc st.orders o₁.id o₁ }
      match GetOrderItemsDetailsList get
          ((lookupAssoc st₁.orderItems o₁.id).getD []) with
      | (.error pid, _) => (.error (.projectionFailed pid), st₁)
      | (.ok detailsList, _) =>
        (.ok { id := o₁.id
               items := detailsList
               discount := 0
               amount := o₁.amount
               status := o₁.status
               dispatchedAt := o₁.dispatchedAt
               createdAt := o₁.createdAt
               updatedAt := o₁.updatedAt },
         st₁)

/-- The transition rule as the specification words it, on ranks: reject a
non-increase, reject Completed unless from Dispatched, reject Returned
unless from Completed, reject Cancelled past Dispatched; otherwise allow. -/
def rankRuleAllows (current new : OrderStatus) : Prop :=
  orderStatusMap current < orderStatusMap new ∧
  (orderStatusMap new = 3 → orderStatusMap current = 2) ∧
  (orderStatusMap new = 4 → orderStatusMap current = 3) ∧
  (orderStatusMap new = 5 → orderStatusMap current ≤ 2)

/-- Whether the stock check fails for one item: the product exists but its
available quantity is below the requested one. -/
def itemShort (get : String → Option ProductDetails) (item : CreateOrderItemsRequest) : Bool :=
  match get item.productId with
  | some productDetails => decide (productDetails.quantity < item.quantity)
  | none => false

/-- Whether the stock check passes for one item: the product exists and
covers the requested quantity. -/
def itemCheckOk (get : String → Option ProductDetails) (item : CreateOrderItemsRequest) : Bool :=
  match get item.productId with
  | some productDetails => decide (item.quantity ≤ productDetails.quantity)
  | none => false

/-- Whether the inventory-adjustment phase fails for one item: the re-fetch
misses, or the quantity update errors. -/
def adjustFails (get : String → Option ProductDetails) (updOk : String → Int → Bool)
    (item : CreateOrderItemsRequest) : Bool :=
  match get item.productId with
  | none => true
  | some productDetails => !(updOk item.productId (productDetails.quantity - item.quantity))

/-- The undiscounted order amount: the sum of unit price times quantity
over the items, with prices from the given catalog view. -/
def rawAmount (get : String → Option ProductDetails) :
    List CreateOrderItemsRequest → Rat
  | [] => 0
  | item :: rest =>
    (match get item.productId with
     | some productDetails => productDetails.price * (item.quantity : Rat)
     | none => 0) + rawAmount get rest

/-- The number of line items whose catalog category is premium,
case-insensitively, counted once per item. -/
def premiumCount (get : String → Option ProductDetails)
    (items : List CreateOrderItemsRequest) : Nat :=
  items.countP (fun item =>
    match get item.productId with
    | some productDetails => lowerStr productDetails.category == "premium"
    | none => false)

/-- The order record the placement workflow persists once pricing is done:
premium count and raw amount determine the discount and the charged
amount, mirroring the handler's construction. -/
def persistedOrder (get : String → Option ProductDetails)
    (items : List CreateOrderItemsRequest) (newId now : String) : Order :=
  let o : Order :=
    { id := newId
      discount := 0
      amount := 0
      status := .placed
      dispatchedAt := ""
      createdAt := now
      updatedAt := now }
  if premiumCount get items ≥ 3 then
    { o with
      discount := 10
      amount := rawAmount get items - rawAmount get items * 10 / 100 }
  else
    { o with amount := rawAmount get items }

/-- An empty store, for concrete runs. -/
def emptyStore : Store := ⟨[], []⟩

/-- A catalog with no products and failing updates, for concrete runs. -/
def noCatalog : Catalogs :=
  ⟨fun _ => none, fun _ => none, fun _ => none, fun _ => none, fun _ _ => false⟩

/-- A concrete catalog view for concrete runs: three premium products, a
standard one, and a low-stock one. -/
def demoCatalog : String → Option ProductDetails := fun pid =>
  if pid = "p1" then some ⟨"Gold watch", "a watch", "Premium", 10, 100⟩
  else if pid = "p2" then some ⟨"Silver pen", "a pen", "premium", 20, 100⟩
  else if pid = "p3" then some ⟨"Ruby ring", "a ring", "PREMIUM", 30, 100⟩
  else if pid = "s1" then some ⟨"Plain mug", "a mug", "standard", 5, 100⟩
  else if pid = "low1" then some ⟨"Rare coin", "a coin", "standard", 7, 2⟩
  else none

/-- Catalog views built from `demoCatalog`, with succeeding updates. -/
def demoCats : Catalogs :=
  ⟨demoCatalog, demoCatalog, demoCatalog, demoCatalog, fun _ _ => true⟩

/-- Catalog views built from `demoCatalog`, with failing updates. -/
def demoCatsUpdFail : Catalogs :=
  ⟨demoCatalog, demoCatalog, demoCatalog, demoCatalog, fun _ _ => false⟩

/-- A concrete placed order, for concrete runs. -/
def demoOrder : Order :=
  ⟨"ord1", 10, 54, .placed, "", "2024-01-01 00:00:00 +0000 UTC",
   "2024-01-01 00:00:00 +0000 UTC"⟩

/-- A store holding `demoOrder` and no items, for concrete runs. -/
def demoStore : Store := ⟨[("ord1", demoOrder)], []⟩

theorem lookupAssoc_putAssoc_self {α : Type} (l : List (String × α)) (k : String) (v : α) :
    lookupAssoc (putAssoc l k v) k = some v := by
  induction l with
  | nil => simp [putAssoc, lookupAssoc]
  | cons hd tl ih =>
    obtain ⟨k₁, v₁⟩ := hd
    by_cases hk : k₁ = k
    · simp [putAssoc, hk, lookupAssoc]
    · simp [putAssoc, hk, lookupAssoc, ih]

theorem validate_singleton (pid : String) (q : Int) (h : pid ≠ "") :
    Validate ⟨[⟨pid, q⟩]⟩ = none ↔ 1 ≤ q ∧ q ≤ 10 := by
  simp [Validate, dupCheck, itemCheck, h]
  omega

/-- C1: over the whole 5 by 5 state space, the status-update switch of
`UpdateOrderStatusHandler` accepts exactly the pairs the rank rule of the
specification allows. -/
theorem C1_status_decision_matches_rank_rule (current new : OrderStatus) :
    statusDecision current new = none ↔ rankRuleAllows current new := by
  cases current <;> cases new <;>
    simp +decide [statusDecision, rankRuleAllows, orderStatusMap]

/-- C7: for a structurally well-formed single line item, validation accepts
a quantity q exactly when 1 ≤ q ≤ 10. -/
theorem C7_quantity_bounds (pid : String) (q : Int) (h : pid ≠ "") :
    Validate ⟨[⟨pid, q⟩]⟩ = none ↔ 1 ≤ q ∧ q ≤ 10 :=
  validate_singleton pid q h

theorem C7_quantity_bounds_witness :
    ("p1" ≠ "" ∧ (Validate ⟨[⟨"p1", 1⟩]⟩ = none ↔ 1 ≤ (1 : Int) ∧ (1 : Int) ≤ 10)) ∧
    ("p1" ≠ "" ∧ (Validate ⟨[⟨"p1", 11⟩]⟩ = none ↔ 1 ≤ (11 : Int) ∧ (11 : Int) ≤ 10)) :=
  ⟨⟨by decide, C7_quantity_bounds "p1" 1 (by decide)⟩,
   ⟨by decide, C7_quantity_bounds "p1" 11 (by decide)⟩⟩

/-- C8 counterexample: a whitespace-only product id passes structural
validation, and the placement then reaches the catalog: the run performs a
details fetch for the blank id and rejects it only as a missing product,
not as a validation failure. -/
theorem C8_blank_id_counterexample :
    Validate ⟨[⟨" ", 1⟩]⟩ = none ∧
    PlaceOrderHandler noCatalog emptyStore ⟨[⟨" ", 1⟩]⟩ "ord1" "t0" =
      (.error (.productNotFound " "), emptyStore, [.get " "]) :=
  ⟨rfl, rfl⟩

/-- C8 amended: structural validation rejects exactly the empty-string
product id; a whitespace-only id such as a single blank passes validation
(subject only to the quantity bound) and is not stopped before the catalog
lookup. -/
theorem C8_blank_id_amended (q : Int) :
    Validate ⟨[⟨"", q⟩]⟩ = some "invalid product id" ∧
    (Validate ⟨[⟨" ", q⟩]⟩ = none ↔ 1 ≤ q ∧ q ≤ 10) := by
  refine ⟨?_, validate_singleton " " q (by decide)⟩
  simp [Validate, dupCheck, itemCheck]

theorem statusStep_some_spec (o : Order) (newStatus : OrderStatus) (now : String)
    (o₁ : Order) (h : statusStep o newStatus now = some o₁) :
    orderStatusMap o.status < orderStatusMap newStatus ∧ o₁.status = newStatus ∧
    o₁.dispatchedAt = (if newStatus = OrderStatus.dispatched then now else o.dispatchedAt) ∧
    o₁.id = o.id ∧ o₁.discount = o.discount ∧ o₁.amount = o.amount ∧
    o₁.createdAt = o.createdAt ∧ o₁.updatedAt = o.updatedAt := by
  unfold statusStep at h
  rcases hdec : statusDecision o.status newStatus with _ | msg
  · rw [hdec] at h
    injection h with h
    subst h
    refine ⟨?_, rfl, rfl, rfl, rfl, rfl, rfl, rfl⟩
    have hnle : ¬ (orderStatusMap newStatus ≤ orderStatusMap o.status) := by
      intro hle
      simp only [statusDecision] at hdec
      rw [if_pos hle] at hdec
      exact Option.noConfusion hdec
    omega
  · rw [hdec] at h
    exact Option.noConfusion h

theorem orderStatusMap_pos (s : OrderStatus) : 1 ≤ orderStatusMap s := by
  cases s <;> decide

theorem runSteps_no_dispatch (reqs : List (OrderStatus × String)) (o o' : Order)
    (h2 : 2 ≤ orderStatusMap o.status) (h : runSteps o reqs = some o') :
    reqs.countP (fun p => decide (p.1 = OrderStatus.dispatched)) = 0 := by
  induction reqs generalizing o with
  | nil => simp
  | cons hd tl ih =>
    obtain ⟨newStatus, now⟩ := hd
    unfold runSteps at h
    rcases hstep : statusStep o newStatus now with _ | o₁
    · rw [hstep] at h; exact Option.noConfusion h
    · rw [hstep] at h
      obtain ⟨hlt, hst, -⟩ := statusStep_some_spec o newStatus now o₁ hstep
      have hne : newStatus ≠ OrderStatus.dispatched := by
        intro he
        rw [he] at hlt
        have hd2 : orderStatusMap OrderStatus.dispatched = 2 := rfl
        omega
      have hpa : decide (newStatus = OrderStatus.dispatched) = false := by
        simpa using hne
      rw [List.countP_cons, hpa]
      simp only [Bool.false_eq_true, if_false, Nat.add_zero]
      exact ih o₁ (by rw [hst]; omega) h

/-- C4 failing run: the transition Placed to Dispatched on a stored order is
accepted and stamps `dispatchedAt`, but the stored `updatedAt` keeps its
old value instead of being set to the current time: the handler never
writes that field. -/
theorem C4_code_bug_updatedAt_not_stamped :
    ∃ o₁, lookupAssoc (UpdateOrderStatusHandler (fun _ => none) demoStore "ord1"
        OrderStatus.dispatched "2024-01-02 00:00:00 +0000 UTC").2.orders "ord1" = some o₁ ∧
      o₁.status = OrderStatus.dispatched ∧
      o₁.dispatchedAt = "2024-01-02 00:00:00 +0000 UTC" ∧
      o₁.updatedAt = "2024-01-01 00:00:00 +0000 UTC" ∧
      o₁.updatedAt ≠ "2024-01-02 00:00:00 +0000 UTC" := by
  exact ⟨_, rfl, rfl, rfl, rfl, by decide⟩

/-- C5: across any run of accepted status transitions, at most one step
targets Dispatched, and a single accepted step writes `dispatchedAt`
exactly on a transition into Dispatched, leaving it unchanged otherwise. -/
theorem C5_dispatchedAt_set_at_most_once (o : Order) (reqs : List (OrderStatus × String))
    (o' : Order) (h : runSteps o reqs = some o') :
    reqs.countP (fun p => decide (p.1 = OrderStatus.dispatched)) ≤ 1 ∧
    ∀ b : Order, ∀ newStatus : OrderStatus, ∀ now : String, ∀ b₁ : Order,
      statusStep b newStatus now = some b₁ →
      b₁.dispatchedAt = if newStatus = OrderStatus.dispatched then now else b.dispatchedAt := by
  constructor
  · cases reqs with
    | nil => simp
    | cons hd tl =>
      obtain ⟨newStatus, now⟩ := hd
      unfold runSteps at h
      rcases hstep : statusStep o newStatus now with _ | o₁
      · rw [hstep] at h; exact Option.noConfusion h
      · rw [hstep] at h
        obtain ⟨hlt, hst, -⟩ := statusStep_some_spec o newStatus now o₁ hstep
        have h2 : 2 ≤ orderStatusMap o₁.status := by
          have hpos := orderStatusMap_pos o.status
          rw [hst]; omega
        have hz := runSteps_no_dispatch tl o₁ o' h2 h
        rw [List.countP_cons, hz]
        split <;> omega
  · intro b newStatus now b₁ hb
    exact (statusStep_some_spec b newStatus now b₁ hb).2.2.1

theorem C5_dispatchedAt_witness :
    [(OrderStatus.dispatched, "t1"), (OrderStatus.completed, "t2"),
        (OrderStatus.returned, "t3")].countP
      (fun p => decide (p.1 = OrderStatus.dispatched)) ≤ 1 ∧
    ∀ b : Order, ∀ newStatus : OrderStatus, ∀ now : String, ∀ b₁ : Order,
      statusStep b newStatus now = some b₁ →
      b₁.dispatchedAt = if newStatus = OrderStatus.dispatched then now else b.dispatchedAt :=
  C5_dispatchedAt_set_at_most_once demoOrder
    [(OrderStatus.dispatched, "t1"), (OrderStatus.completed, "t2"),
     (OrderStatus.returned, "t3")]
    ⟨"ord1", 10, 54, .returned, "t1", "2024-01-01 00:00:00 +0000 UTC",
     "2024-01-01 00:00:00 +0000 UTC"⟩
    (by rfl)

theorem updateHandler_writes_statusStep (get : String → Option ProductDetails)
    (st : Store) (orderId : String) (newStatus : OrderStatus) (now : String) (o : Order)
    (ho : lookupAssoc st.orders orderId = some o)
    (hd : statusDecision o.status newStatus = none) :
    ∃ o₁, statusStep o newStatus now = some o₁ ∧
      lookupAssoc (UpdateOrderStatusHandler get st orderId newStatus now).2.orders o.id =
        some o₁ := by
  refine ⟨{ o with
            status := newStatus
            dispatchedAt := if newStatus = OrderStatus.dispatched then now
              else o.dispatchedAt }, ?_, ?_⟩
  · unfold statusStep
    rw [hd]
  · unfold UpdateOrderStatusHandler
    rw [ho]
    dsimp only
    rw [hd]
    dsimp only
    split
    · exact lookupAssoc_putAssoc_self _ _ _
    · exact lookupAssoc_putAssoc_self _ _ _

/-- C10: an accepted status update rewrites the stored order changing only
its status and, on a transition into Dispatched, its dispatch stamp; id,
discount, amount and creation stamp survive unchanged. The response the
handler builds omits the stored discount and always carries discount 0. -/
theorem C10_status_update_frame_and_discount_projection
    (get : String → Option ProductDetails) (st : Store) (orderId : String)
    (newStatus : OrderStatus) (now : String) (o : Order) (resp : CreateOrderResponse)
    (st₁ : Store)
    (ho : lookupAssoc st.orders orderId = some o)
    (h : UpdateOrderStatusHandler get st orderId newStatus now = (.ok resp, st₁)) :
    ∃ o₁, lookupAssoc st₁.orders o.id = some o₁ ∧
      o₁.id = o.id ∧ o₁.discount = o.discount ∧ o₁.amount = o.amount ∧
      o₁.createdAt = o.createdAt ∧ o₁.updatedAt = o.updatedAt ∧
      o₁.status = newStatus ∧
      (newStatus ≠ OrderStatus.dispatched → o₁.dispatchedAt = o.dispatchedAt) ∧
      resp.discount = 0 := by
  unfold UpdateOrderStatusHandler at h
  rw [ho] at h
  dsimp only at h
  rcases hdec : statusDecision o.status newStatus with _ | msg
  · rw [hdec] at h
    dsimp only at h
    rcases hproj : GetOrderItemsDetailsList get ((lookupAssoc st.orderItems o.id).getD [])
      with ⟨res, calls⟩
    rw [hproj] at h
    rcases res with pid | detailsList
    · simp at h
    · rw [Prod.mk.injEq] at h
      obtain ⟨hr, hs⟩ := h
      injection hr with hr
      subst hr
      subst hs
      refine ⟨_, lookupAssoc_putAssoc_self _ _ _, rfl, rfl, rfl, rfl, rfl, rfl, ?_, rfl⟩
      intro hne
      simp [hne]
  · rw [hdec] at h
    simp at h

theorem C10_status_update_witness :
    ∃ o₁, lookupAssoc
        (Store.mk [("ord1", Order.mk "ord1" 10 54 OrderStatus.dispatched
            "2024-01-02 00:00:00 +0000 UTC" "2024-01-01 00:00:00 +0000 UTC"
            "2024-01-01 00:00:00 +0000 UTC")] []).orders demoOrder.id = some o₁ ∧
      o₁.id = demoOrder.id ∧ o₁.discount = demoOrder.discount ∧
      o₁.amount = demoOrder.amount ∧
      o₁.createdAt = demoOrder.createdAt ∧ o₁.updatedAt = demoOrder.updatedAt ∧
      o₁.status = OrderStatus.dispatched ∧
      (OrderStatus.dispatched ≠ OrderStatus.dispatched →
        o₁.dispatchedAt = demoOrder.dispatchedAt) ∧
      (CreateOrderResponse.mk "ord1" [] 0 54 OrderStatus.dispatched
        "2024-01-02 00:00:00 +0000 UTC" "2024-01-01 00:00:00 +0000 UTC"
        "2024-01-01 00:00:00 +0000 UTC").discount = 0 :=
  C10_status_update_frame_and_discount_projection demoCatalog demoStore "ord1"
    OrderStatus.dispatched "2024-01-02 00:00:00 +0000 UTC" demoOrder
    (CreateOrderResponse.mk "ord1" [] 0 54 OrderStatus.dispatched
      "2024-01-02 00:00:00 +0000 UTC" "2024-01-01 00:00:00 +0000 UTC"
      "2024-01-01 00:00:00 +0000 UTC")
    (Store.mk [("ord1", Order.mk "ord1" 10 54 OrderStatus.dispatched
        "2024-01-02 00:00:00 +0000 UTC" "2024-01-01 00:00:00 +0000 UTC"
        "2024-01-01 00:00:00 +0000 UTC")] [])
    (by rfl) (by rfl)

theorem checkLoop_fst_none (get : String → Option ProductDetails)
    (items : List CreateOrderItemsRequest)
    (h : ∀ item ∈ items, itemCheckOk get item = true) :
    (checkLoop get items).1 = none := by
  induction items with
  | nil => rfl
  | cons item rest ih =>
    have hh := h item (List.mem_cons_self _ _)
    unfold itemCheckOk at hh
    unfold checkLoop
    rcases hg : get item.productId with _ | pd
    · rw [hg] at hh; simp at hh
    · rw [hg] at hh
      simp only [decide_eq_true_eq] at hh
      dsimp only
      rw [if_neg (by omega)]
      dsimp only
      exact ih (fun it hit => h it (List.mem_cons_of_mem _ hit))

theorem checkLoop_short (get : String → Option ProductDetails)
    (items : List CreateOrderItemsRequest)
    (hall : ∀ item ∈ items, (get item.productId).isSome = true)
    (hs : items.any (itemShort get) = true) :
    ∃ pid, (checkLoop get items).1 = some (.insufficientInventory pid) ∧
      ∃ item ∈ items, item.productId = pid ∧ itemShort get item = true := by
  induction items with
  | nil => simp at hs
  | cons item rest ih =>
    have hh := hall item (List.mem_cons_self _ _)
    rcases hg : get item.productId with _ | pd
    · rw [hg] at hh; simp at hh
    · by_cases hshort : pd.quantity < item.quantity
      · refine ⟨item.productId, ?_, item, List.mem_cons_self _ _, rfl, ?_⟩
        · unfold checkLoop
          rw [hg]
          dsimp only
          rw [if_pos hshort]
        · unfold itemShort; rw [hg]; simpa using hshort
      · have hsr : rest.any (itemShort get) = true := by
          rcases List.any_eq_true.1 hs with ⟨x, hx, hpx⟩
          rcases List.mem_cons.1 hx with rfl | hx'
          · exfalso
            unfold itemShort at hpx
            rw [hg] at hpx
            simp only [decide_eq_true_eq] at hpx
            exact hshort hpx
          · exact List.any_eq_true.2 ⟨x, hx', hpx⟩
        obtain ⟨pid, h1, x, hx, hpid, hxs⟩ :=
          ih (fun it hit => hall it (List.mem_cons_of_mem _ hit)) hsr
        refine ⟨pid, ?_, x, List.mem_cons_of_mem _ hx, hpid, hxs⟩
        unfold checkLoop
        rw [hg]
        dsimp only
        rw [if_neg hshort]
        dsimp only
        exact h1

theorem priceLoop_ok (get : String → Option ProductDetails) (orderId : String)
    (items : List CreateOrderItemsRequest)
    (h : ∀ item ∈ items, (get item.productId).isSome = true) :
    (priceLoop get orderId items).1 =
      .ok (rawAmount get items, premiumCount get items,
           items.map (fun item => OrderItem.mk item.productId item.quantity orderId)) := by
  induction items with
  | nil => rfl
  | cons item rest ih =>
    have hh := h item (List.mem_cons_self _ _)
    rcases hg : get item.productId with _ | pd
    · rw [hg] at hh; simp at hh
    · unfold priceLoop
      rw [hg]
      rcases hre : priceLoop get orderId rest with ⟨r, calls⟩
      have ihr := ih (fun it hit => h it (List.mem_cons_of_mem _ hit))
      rw [hre] at ihr
      dsimp only at ihr
      subst ihr
      dsimp only
      simp only [rawAmount, premiumCount, List.countP_cons, List.map_cons, hg]
      rw [Nat.add_comm]

theorem adjustLoop_fail (get : String → Option ProductDetails)
    (updOk : String → Int → Bool) (items : List CreateOrderItemsRequest)
    (hf : items.any (adjustFails get updOk) = true) :
    ∃ pid, ((adjustLoop get updOk items).1 = some (.productNotFoundAdjust pid) ∨
            (adjustLoop get updOk items).1 = some (.inventoryUpdateFailed pid)) ∧
      ∃ item ∈ items, item.productId = pid ∧ adjustFails get updOk item = true := by
  induction items with
  | nil => simp at hf
  | cons item rest ih =>
    rcases hg : get item.productId with _ | pd
    · refine ⟨item.productId, Or.inl ?_, item, List.mem_cons_self _ _, rfl, ?_⟩
      · unfold adjustLoop; rw [hg]
      · unfold adjustFails; rw [hg]
    · by_cases hupd : updOk item.productId (pd.quantity - item.quantity) = true
      · have hfr : rest.any (adjustFails get updOk) = true := by
          rcases List.any_eq_true.1 hf with ⟨x, hx, hpx⟩
          rcases List.mem_cons.1 hx with rfl | hx'
          · exfalso
            unfold adjustFails at hpx
            rw [hg] at hpx
            dsimp only at hpx
            rw [hupd] at hpx
            simp at hpx
          · exact List.any_eq_true.2 ⟨x, hx', hpx⟩
        obtain ⟨pid, hores, x, hx, hpid, hxs⟩ := ih hfr
        refine ⟨pid, ?_, x, List.mem_cons_of_mem _ hx, hpid, hxs⟩
        unfold adjustLoop
        rw [hg]
        dsimp only
        rw [if_pos hupd]
        dsimp only
        exact hores
      · refine ⟨item.productId, Or.inr ?_, item, List.mem_cons_self _ _, rfl, ?_⟩
        · unfold adjustLoop
          rw [hg]
          dsimp only
          rw [if_neg hupd]
        · unfold adjustFails
          rw [hg]
          dsimp only
          simp only [Bool.not_eq_true] at hupd
          rw [hupd]
          rfl

theorem placeOrder_persists (cats : Catalogs) (st : Store) (oReq : CreateOrderRequest)
    (newId now : String)
    (hv : Validate oReq = none)
    (hc : ∀ item ∈ oReq.items, itemCheckOk cats.check item = true)
    (hp : ∀ item ∈ oReq.items, (cats.price item.productId).isSome = true) :
    (PlaceOrderHandler cats st oReq newId now).2.1 =
      { orders := putAssoc st.orders newId (persistedOrder cats.price oReq.items newId now)
        orderItems := putAssoc st.orderItems newId
          (oReq.items.map (fun item => OrderItem.mk item.productId item.quantity newId)) } := by
  unfold PlaceOrderHandler
  rw [hv]
  rcases hce : checkLoop cats.check oReq.items with ⟨e, calls₁⟩
  have he : e = none := by
    have h₀ := checkLoop_fst_none cats.check oReq.items hc
    rw [hce] at h₀; exact h₀
  subst he
  dsimp only
  rcases hpe : priceLoop cats.price newId oReq.items with ⟨r, calls₂⟩
  have hr := priceLoop_ok cats.price newId oReq.items hp
  rw [hpe] at hr
  dsimp only at hr
  subst hr
  dsimp only
  unfold persistedOrder
  by_cases hcnt : premiumCount cats.price oReq.items ≥ 3
  · simp only [if_pos hcnt]
    split
    · rfl
    · split <;> rfl
  · simp only [if_neg hcnt]
    split
    · rfl
    · split <;> rfl

theorem dupCheck_of_mem (items : List CreateOrderItemsRequest) (acc : List String)
    (h : ∃ item ∈ items, lowerStr item.productId ∈ acc) : dupCheck acc items = true := by
  induction items generalizing acc with
  | nil => simp at h
  | cons item rest ih =>
    unfold dupCheck
    by_cases hc : acc.any (fun product_id => lowerStr item.productId == product_id) = true
    · rw [if_pos hc]
    · rw [if_neg hc]
      obtain ⟨x, hx, hmem⟩ := h
      rcases List.mem_cons.1 hx with rfl | hx'
      · exact absurd (List.any_eq_true.2 ⟨lowerStr x.productId, hmem, by simp⟩) hc
      · exact ih (acc ++ [lowerStr item.productId]) ⟨x, hx', List.mem_append_left _ hmem⟩

theorem dupCheck_of_dup (l₁ : List CreateOrderItemsRequest) (x : CreateOrderItemsRequest)
    (l₂ : List CreateOrderItemsRequest) (y : CreateOrderItemsRequest)
    (l₃ : List CreateOrderItemsRequest) (acc : List String)
    (hxy : lowerStr x.productId = lowerStr y.productId) :
    dupCheck acc (l₁ ++ (x :: (l₂ ++ (y :: l₃)))) = true := by
  induction l₁ generalizing acc with
  | nil =>
    simp only [List.nil_append]
    rw [dupCheck]
    by_cases hc : acc.any (fun product_id => lowerStr x.productId == product_id) = true
    · rw [if_pos hc]
    · rw [if_neg hc]
      apply dupCheck_of_mem
      refine ⟨y, List.mem_append_right _ (List.mem_cons_self _ _), ?_⟩
      rw [← hxy]
      exact List.mem_append_right _ (List.mem_singleton.2 rfl)
  | cons z rest ih =>
    simp only [List.cons_append]
    rw [dupCheck]
    by_cases hc : acc.any (fun product_id => lowerStr z.productId == product_id) = true
    · rw [if_pos hc]
    · rw [if_neg hc]
      exact ih _

theorem validate_dup (l₁ : List CreateOrderItemsRequest) (x : CreateOrderItemsRequest)
    (l₂ : List CreateOrderItemsRequest) (y : CreateOrderItemsRequest)
    (l₃ : List CreateOrderItemsRequest)
    (hxy : lowerStr x.productId = lowerStr y.productId) :
    Validate ⟨l₁ ++ (x :: (l₂ ++ (y :: l₃)))⟩ = some "product id is repeated" := by
  have hlen : ¬ ((l₁ ++ (x :: (l₂ ++ (y :: l₃)))).length = 0) := by simp
  have hdup := dupCheck_of_dup l₁ x l₂ y l₃ [] hxy
  unfold Validate
  dsimp only
  rw [if_neg hlen, if_pos hdup]

/-- C6: a request holding two items with the same product id up to case is
rejected by structural validation: the handler returns the duplicate-id
validation error, performs no catalog call at all, and leaves the store
untouched. -/
theorem C6_duplicate_ids_rejected_before_catalog (cats : Catalogs) (st : Store)
    (newId now : String) (l₁ : List CreateOrderItemsRequest)
    (x : CreateOrderItemsRequest) (l₂ : List CreateOrderItemsRequest)
    (y : CreateOrderItemsRequest) (l₃ : List CreateOrderItemsRequest)
    (hxy : lowerStr x.productId = lowerStr y.productId) :
    PlaceOrderHandler cats st ⟨l₁ ++ (x :: (l₂ ++ (y :: l₃)))⟩ newId now =
      (.error (.validation "product id is repeated"), st, ([] : List CatalogCall)) := by
  unfold PlaceOrderHandler
  rw [validate_dup l₁ x l₂ y l₃ hxy]

theorem C6_duplicate_ids_witness :
    PlaceOrderHandler noCatalog emptyStore
        ⟨[] ++ ((⟨"A", 1⟩ : CreateOrderItemsRequest) :: ([] ++
          ((⟨"a", 2⟩ : CreateOrderItemsRequest) :: [])))⟩ "ord1" "t0" =
      (.error (.validation "product id is repeated"), emptyStore, ([] : List CatalogCall)) :=
  C6_duplicate_ids_rejected_before_catalog noCatalog emptyStore "ord1" "t0"
    [] ⟨"A", 1⟩ [] ⟨"a", 2⟩ [] (by rfl)

/-- C3: when the request is structurally valid, every referenced product
resolves, and some item asks for more than its product has available, the
placement fails with the insufficient-inventory error naming a product that
is indeed short, and the store is returned unchanged. -/
theorem C3_insufficient_stock_rejected (cats : Catalogs) (st : Store)
    (oReq : CreateOrderRequest) (newId now : String)
    (hv : Validate oReq = none)
    (hall : ∀ item ∈ oReq.items, (cats.check item.productId).isSome = true)
    (hs : oReq.items.any (itemShort cats.check) = true) :
    ∃ pid, (PlaceOrderHandler cats st oReq newId now).1 =
        .error (.insufficientInventory pid) ∧
      (∃ item ∈ oReq.items, item.productId = pid ∧ itemShort cats.check item = true) ∧
      (PlaceOrderHandler cats st oReq newId now).2.1 = st := by
  obtain ⟨pid, hcl, hwit⟩ := checkLoop_short cats.check oReq.items hall hs
  unfold PlaceOrderHandler
  rw [hv]
  rcases hce : checkLoop cats.check oReq.items with ⟨e, calls⟩
  rw [hce] at hcl
  dsimp only at hcl
  subst hcl
  exact ⟨pid, rfl, hwit, rfl⟩

theorem C3_insufficient_stock_witness :
    ∃ pid, (PlaceOrderHandler demoCats emptyStore ⟨[⟨"low1", 5⟩]⟩ "ord1" "t0").1 =
        .error (.insufficientInventory pid) ∧
      (∃ item ∈ [(⟨"low1", 5⟩ : CreateOrderItemsRequest)],
        item.productId = pid ∧ itemShort demoCats.check item = true) ∧
      (PlaceOrderHandler demoCats emptyStore ⟨[⟨"low1", 5⟩]⟩ "ord1" "t0").2.1 = emptyStore :=
  C3_insufficient_stock_rejected demoCats emptyStore ⟨[⟨"low1", 5⟩]⟩ "ord1" "t0"
    (by rfl) (by decide) (by decide)

/-- C2: once a structurally valid placement passes the stock check and all
prices resolve, the persisted order obeys the discount law: three or more
premium line items give discount 10 and an amount of ninety percent of the
raw sum; at most two premium items give discount 0 and the raw sum. -/
theorem C2_premium_discount_law (cats : Catalogs) (st : Store)
    (oReq : CreateOrderRequest) (newId now : String)
    (hv : Validate oReq = none)
    (hc : ∀ item ∈ oReq.items, itemCheckOk cats.check item = true)
    (hp : ∀ item ∈ oReq.items, (cats.price item.productId).isSome = true) :
    ∃ o, lookupAssoc (PlaceOrderHandler cats st oReq newId now).2.1.orders newId = some o ∧
      (3 ≤ premiumCount cats.price oReq.items →
        o.discount = 10 ∧ o.amount = 90 / 100 * rawAmount cats.price oReq.items) ∧
      (premiumCount cats.price oReq.items ≤ 2 →
        o.discount = 0 ∧ o.amount = rawAmount cats.price oReq.items) := by
  rw [placeOrder_persists cats st oReq newId now hv hc hp]
  refine ⟨persistedOrder cats.price oReq.items newId now,
    lookupAssoc_putAssoc_self _ _ _, ?_, ?_⟩
  · intro h3
    unfold persistedOrder
    rw [if_pos h3]
    refine ⟨rfl, ?_⟩
    dsimp only
    ring
  · intro h2
    unfold persistedOrder
    rw [if_neg (by omega)]
    exact ⟨rfl, rfl⟩

theorem C2_premium_discount_witness :
    ∃ o, lookupAssoc (PlaceOrderHandler demoCats emptyStore
        ⟨[⟨"p1", 1⟩, ⟨"p2", 1⟩, ⟨"p3", 1⟩]⟩ "ord1" "t0").2.1.orders "ord1" = some o ∧
      (3 ≤ premiumCount demoCats.price [⟨"p1", 1⟩, ⟨"p2", 1⟩, ⟨"p3", 1⟩] →
        o.discount = 10 ∧
        o.amount = 90 / 100 * rawAmount demoCats.price [⟨"p1", 1⟩, ⟨"p2", 1⟩, ⟨"p3", 1⟩]) ∧
      (premiumCount demoCats.price [⟨"p1", 1⟩, ⟨"p2", 1⟩, ⟨"p3", 1⟩] ≤ 2 →
        o.discount = 0 ∧
        o.amount = rawAmount demoCats.price [⟨"p1", 1⟩, ⟨"p2", 1⟩, ⟨"p3", 1⟩]) :=
  C2_premium_discount_law demoCats emptyStore ⟨[⟨"p1", 1⟩, ⟨"p2", 1⟩, ⟨"p3", 1⟩]⟩
    "ord1" "t0" (by rfl) (by decide) (by decide)

/-- C9: when a structurally valid placement passes the stock check and
pricing but the inventory-adjustment phase fails for some product, the
handler reports an error naming a product whose adjustment indeed fails,
while the order and its line items remain persisted in the store with
status Placed. -/
theorem C9_adjustment_failure_order_remains (cats : Catalogs) (st : Store)
    (oReq : CreateOrderRequest) (newId now : String)
    (hv : Validate oReq = none)
    (hc : ∀ item ∈ oReq.items, itemCheckOk cats.check item = true)
    (hp : ∀ item ∈ oReq.items, (cats.price item.productId).isSome = true)
    (hf : oReq.items.any (adjustFails cats.adjust cats.updOk) = true) :
    ∃ pid, ((PlaceOrderHandler cats st oReq newId now).1 =
          .error (.productNotFoundAdjust pid) ∨
        (PlaceOrderHandler cats st oReq newId now).1 =
          .error (.inventoryUpdateFailed pid)) ∧
      (∃ item ∈ oReq.items, item.productId = pid ∧
        adjustFails cats.adjust cats.updOk item = true) ∧
      ∃ o, lookupAssoc (PlaceOrderHandler cats st oReq newId now).2.1.orders newId = some o ∧
        o.status = OrderStatus.placed ∧ o.id = newId ∧
        lookupAssoc (PlaceOrderHandler cats st oReq newId now).2.1.orderItems newId =
          some (oReq.items.map (fun item => OrderItem.mk item.productId item.quantity newId)) := by
  obtain ⟨pid, hores, hwit⟩ := adjustLoop_fail cats.adjust cats.updOk oReq.items hf
  have hps := placeOrder_persists cats st oReq newId now hv hc hp
  have hmain : (PlaceOrderHandler cats st oReq newId now).1 =
        .error (.productNotFoundAdjust pid) ∨
      (PlaceOrderHandler cats st oReq newId now).1 =
        .error (.inventoryUpdateFailed pid) := by
    unfold PlaceOrderHandler
    rw [hv]
    rcases hce : checkLoop cats.check oReq.items with ⟨e, calls₁⟩
    have he := checkLoop_fst_none cats.check oReq.items hc
    rw [hce] at he
    dsimp only at he
    subst he
    dsimp only
    rcases hpe : priceLoop cats.price newId oReq.items with ⟨r, calls₂⟩
    have hr := priceLoop_ok cats.price newId oReq.items hp
    rw [hpe] at hr
    dsimp only at hr
    subst hr
    dsimp only
    rcases hae : adjustLoop cats.adjust cats.updOk oReq.items with ⟨ae, calls₃⟩
    rw [hae] at hores
    dsimp only at hores
    rcases hores with h1 | h1
    · left
      rw [h1]
    · right
      rw [h1]
  refine ⟨pid, hmain, hwit, persistedOrder cats.price oReq.items newId now, ?_, ?_, ?_, ?_⟩
  · rw [hps]
    exact lookupAssoc_putAssoc_self _ _ _
  · unfold persistedOrder
    split <;> rfl
  · unfold persistedOrder
    split <;> rfl
  · rw [hps]
    exact lookupAssoc_putAssoc_self _ _ _

theorem C9_adjustment_failure_witness :
    ∃ pid, ((PlaceOrderHandler demoCatsUpdFail emptyStore ⟨[⟨"s1", 2⟩]⟩ "ord1" "t0").1 =
          .error (.productNotFoundAdjust pid) ∨
        (PlaceOrderHandler demoCatsUpdFail emptyStore ⟨[⟨"s1", 2⟩]⟩ "ord1" "t0").1 =
          .error (.inventoryUpdateFailed pid)) ∧
      (∃ item ∈ [(⟨"s1", 2⟩ : CreateOrderItemsRequest)], item.productId = pid ∧
        adjustFails demoCatsUpdFail.adjust demoCatsUpdFail.updOk item = true) ∧
      ∃ o, lookupAssoc (PlaceOrderHandler demoCatsUpdFail emptyStore
          ⟨[⟨"s1", 2⟩]⟩ "ord1" "t0").2.1.orders "ord1" = some o ∧
        o.status = OrderStatus.placed ∧ o.id = "ord1" ∧
        lookupAssoc (PlaceOrderHandler demoCatsUpdFail emptyStore
            ⟨[⟨"s1", 2⟩]⟩ "ord1" "t0").2.1.orderItems "ord1" =
          some ([(⟨"s1", 2⟩ : CreateOrderItemsRequest)].map
            (fun item => OrderItem.mk item.productId item.quantity "ord1")) :=
  C9_adjustment_failure_order_remains demoCatsUpdFail emptyStore ⟨[⟨"s1", 2⟩]⟩
    "ord1" "t0" (by rfl) (by decide) (by decide) (by decide)

end OrderService
